import Mathlib

/-!
Verification development for the pseudo-terminal (PTY) session manager in
`src/src-tauri/src/lib.rs`.

The Rust code is shallowly embedded: the mutable `PtyState` (session table plus
id counter, both behind mutexes) becomes an explicit state value threaded through
each operation, the `u32` id counter is a `Nat` reduced modulo `2 ^ 32` where the
Rust `u32` arithmetic wraps, and every fallible OS interaction (`openpty`,
`spawn_command`, `take_writer`, `try_clone_reader`, `write_all`, `flush`,
`resize`, the three `ps` invocations of the foreground resolver) is supplied as
an oracle value describing that call's outcome, so the operations stay pure and
executable while following the source's control flow step by step.
-/

/-- One entry of the session table.  The Rust `PtySession` additionally owns the
master handle, the writer, the child handle and the reader `JoinHandle`; those
are pure resources whose observable behaviour is modelled through the operation
oracles (`WriteEnv`, `Option String` resize outcome, `ResolveEnv`) and the
reader-loop trace, so the only data field the operations inspect is
`child_pid` (`u32`, `0` when the OS did not report a pid). -/
structure PtySession where
  child_pid : Nat
deriving DecidableEq, Repr

/-- The shared `PtyState`: `sessions` is the `HashMap<u32, PtySession>`
(modelled as an association list with unique keys) and `next_id` the `u32`
counter behind the second mutex. -/
structure PtyState where
  sessions : List (Nat × PtySession)
  next_id : Nat
deriving DecidableEq, Repr

/-- `PtyState::default()`: empty table, counter starts at `1`. -/
def initialState : PtyState := { sessions := [], next_id := 1 }

/-- `sessions.get(&id)` on the association list. -/
def tableLookup (k : Nat) : List (Nat × PtySession) → Option PtySession
  | [] => none
  | (k', s) :: rest => if k' = k then some s else tableLookup k rest

/-- `sessions.remove(&id)`'s effect on the table contents (keys are unique, so
removing every binding of `k` coincides with `HashMap::remove`). -/
def tableErase (k : Nat) : List (Nat × PtySession) → List (Nat × PtySession)
  | [] => []
  | (k', s) :: rest => if k' = k then tableErase k rest else (k', s) :: tableErase k rest

/-- `sessions.insert(id, session)`: binds `k`, replacing any previous binding. -/
def tableInsert (k : Nat) (s : PtySession) (l : List (Nat × PtySession)) :
    List (Nat × PtySession) :=
  (k, s) :: tableErase k l

/-- `u32` modulus. -/
def u32Mod : Nat := 4294967296

instance : DecidableEq (Except String Unit) := fun a b =>
  match a, b with
  | Except.ok (), Except.ok () => isTrue rfl
  | Except.error e₁, Except.error e₂ =>
    if h : e₁ = e₂ then isTrue (by rw [h]) else isFalse (fun hc => h (by injection hc))
  | Except.ok _, Except.error _ => isFalse (fun hc => by injection hc)
  | Except.error _, Except.ok _ => isFalse (fun hc => by injection hc)

/-- Oracle for the four fallible OS steps of `create_pty_session`, in source
order, plus the pid reported by `child.process_id()` (`none` models
`process_id()` returning `None`, which the source defaults to `0`). -/
structure CreateEnv where
  openpty : Except String Unit
  spawn_command : Except String Unit
  take_writer : Except String Unit
  clone_reader : Except String Unit
  process_id : Option Nat
deriving DecidableEq, Repr

/-- `create_pty_session` (lib.rs lines 36-113): each OS step either succeeds or
aborts the whole call with the source's formatted error message; on success the
id is read from the counter, the counter is incremented (wrapping `u32`
arithmetic), and the assembled session is inserted under that id.  The reader
thread spawned between allocation and insertion is modelled separately by
`readerLoop`. -/
def create_pty_session (env : CreateEnv) (st : PtyState) :
    Except String Nat × PtyState :=
  match env.openpty with
  | Except.error e => (Except.error ("Failed to open pty: " ++ e), st)
  | Except.ok _ =>
  match env.spawn_command with
  | Except.error e => (Except.error ("Failed to spawn command: " ++ e), st)
  | Except.ok _ =>
  match env.take_writer with
  | Except.error e => (Except.error ("Failed to get writer: " ++ e), st)
  | Except.ok _ =>
  match env.clone_reader with
  | Except.error e => (Except.error ("Failed to get reader: " ++ e), st)
  | Except.ok _ =>
    let session_id := st.next_id
    let child_pid := env.process_id.getD 0
    (Except.ok session_id,
      { sessions := tableInsert session_id { child_pid := child_pid } st.sessions,
        next_id := (st.next_id + 1) % u32Mod })

/-- Outcome oracle for `session.writer.write_all(..)`: success, or failure with
an OS message after `k` of the bytes were handed to the descriptor. -/
inductive WriteOutcome where
  | success
  | failAfter (k : Nat) (msg : String)
deriving DecidableEq, Repr

/-- Oracle for the two fallible I/O steps of `write_to_pty`. -/
structure WriteEnv where
  write_all : WriteOutcome
  flush : Option String
deriving DecidableEq, Repr

/-- The UTF-8 bytes of a Lean character (the Rust `str::as_bytes` view of one
`char`), as plain `Nat`s. -/
def utf8EncodeChar (c : Char) : List Nat :=
  let n := c.toNat
  if n < 128 then [n]
  else if n < 2048 then [192 + n / 64, 128 + n % 64]
  else if n < 65536 then [224 + n / 4096, 128 + n / 64 % 64, 128 + n % 64]
  else [240 + n / 262144, 128 + n / 4096 % 64, 128 + n / 64 % 64, 128 + n % 64]

/-- `data.as_bytes()`: the UTF-8 encoding of a string. -/
def utf8Encode (s : String) : List Nat := (s.data.map utf8EncodeChar).flatten

/-- `write_to_pty` (lib.rs lines 116-132).  Returns the command result, the
state after the call, and the bytes actually handed to the session's writer
(empty when the session is unknown, a prefix on a failed `write_all`). -/
def write_to_pty (env : WriteEnv) (st : PtyState) (session_id : Nat) (data : String) :
    Except String Unit × PtyState × List Nat :=
  match tableLookup session_id st.sessions with
  | none => (Except.error "Session not found", st, [])
  | some _ =>
    match env.write_all with
    | WriteOutcome.failAfter k msg =>
        (Except.error ("Write error: " ++ msg), st, (utf8Encode data).take k)
    | WriteOutcome.success =>
        match env.flush with
        | some msg => (Except.error ("Flush error: " ++ msg), st, utf8Encode data)
        | none => (Except.ok (), st, utf8Encode data)

/-- `resize_pty` (lib.rs lines 136-154); the oracle is the outcome of
`master.resize(..)` (`some msg` = the OS call failed with `msg`). -/
def resize_pty (resize_outcome : Option String) (st : PtyState) (session_id : Nat)
    (_rows _cols : Nat) : Except String Unit × PtyState :=
  match tableLookup session_id st.sessions with
  | none => (Except.error "Session not found", st)
  | some _ =>
    match resize_outcome with
    | some msg => (Except.error ("Resize error: " ++ msg), st)
    | none => (Except.ok (), st)

/-- `close_pty_session` (lib.rs lines 157-173): remove the entry (a no-op when
absent), best-effort kill the child ignoring the result, drop the handles, and
return `Ok(())` on every path. -/
def close_pty_session (st : PtyState) (session_id : Nat) :
    Except String Unit × PtyState :=
  (Except.ok (), { st with sessions := tableErase session_id st.sessions })

/-- The Unicode replacement character `U+FFFD` produced by
`String::from_utf8_lossy` for ill-formed input. -/
def replChar : Char := Char.ofNat 65533

/-- Lower bound of the admissible first continuation byte for lead byte `b`
(`0xE0`/`0xF0` forbid overlong encodings). -/
def cont1lo (b : Nat) : Nat := if b = 224 then 160 else if b = 240 then 144 else 128

/-- Upper bound of the admissible first continuation byte for lead byte `b`
(`0xED` excludes surrogates, `0xF4` caps at `U+10FFFF`). -/
def cont1hi (b : Nat) : Nat := if b = 237 then 159 else if b = 244 then 143 else 191

/-- `String::from_utf8_lossy` on a byte list: well-formed sequences decode to
their scalar value, and each maximal ill-formed subpart (an invalid lead byte,
a truncated sequence at end of input, or the longest valid prefix of a sequence
broken by an unexpected byte) becomes one `U+FFFD`, resuming at the offending
byte — exactly the `error_len` semantics of `core::str::from_utf8`. -/
def utf8Lossy : List Nat → List Char
  | [] => []
  | [b] => if b < 128 then [Char.ofNat b] else [replChar]
  | b :: c1 :: rest =>
    if b < 128 then Char.ofNat b :: utf8Lossy (c1 :: rest)
    else if 194 ≤ b ∧ b ≤ 223 then
      if 128 ≤ c1 ∧ c1 ≤ 191 then
        Char.ofNat ((b - 192) * 64 + (c1 - 128)) :: utf8Lossy rest
      else replChar :: utf8Lossy (c1 :: rest)
    else if 224 ≤ b ∧ b ≤ 239 then
      if cont1lo b ≤ c1 ∧ c1 ≤ cont1hi b then
        match rest with
        | [] => [replChar]
        | c2 :: r3 =>
          if 128 ≤ c2 ∧ c2 ≤ 191 then
            Char.ofNat ((b - 224) * 4096 + (c1 - 128) * 64 + (c2 - 128)) :: utf8Lossy r3
          else replChar :: utf8Lossy (c2 :: r3)
      else replChar :: utf8Lossy (c1 :: rest)
    else if 240 ≤ b ∧ b ≤ 244 then
      if cont1lo b ≤ c1 ∧ c1 ≤ cont1hi b then
        match rest with
        | [] => [replChar]
        | c2 :: r3 =>
          if 128 ≤ c2 ∧ c2 ≤ 191 then
            match r3 with
            | [] => [replChar]
            | c3 :: r4 =>
              if 128 ≤ c3 ∧ c3 ≤ 191 then
                Char.ofNat ((b - 240) * 262144 + (c1 - 128) * 4096 + (c2 - 128) * 64 + (c3 - 128))
                  :: utf8Lossy r4
              else replChar :: utf8Lossy (c3 :: r4)
          else replChar :: utf8Lossy (c2 :: r3)
      else replChar :: utf8Lossy (c1 :: rest)
    else replChar :: utf8Lossy (c1 :: rest)

/-- Outcome of one blocking `reader.read(&mut buf)` call: `ok bytes` is
`Ok(bytes.length)` with the bytes read (`ok []` is end of stream), `err` is
`Err(_)`. -/
inductive ReadResult where
  | ok (bytes : List Nat)
  | err
deriving DecidableEq, Repr

/-- An event emitted on the session's channel: `output` is
`pty-output-{id}` carrying the lossily decoded chunk, `ended` is
`pty-end-{id}`. -/
inductive PtyEvent where
  | output (session_id : Nat) (text : String)
  | ended (session_id : Nat)
deriving DecidableEq, Repr

/-- The reader thread's loop (lib.rs lines 79-98) applied to a trace of read
outcomes: `Ok(0)` emits the end event and breaks, `Ok(n)` with `n > 0` emits
the lossily decoded chunk and continues, `Err(_)` emits the end event and
breaks.  An exhausted trace models a thread still blocked in `read`. -/
def readerLoop (session_id : Nat) : List ReadResult → List PtyEvent
  | [] => []
  | ReadResult.ok [] :: _ => [PtyEvent.ended session_id]
  | ReadResult.ok bs :: rest =>
      PtyEvent.output session_id (String.mk (utf8Lossy bs)) :: readerLoop session_id rest
  | ReadResult.err :: _ => [PtyEvent.ended session_id]

/-- `true` exactly on `ended` events. -/
def isEnded : PtyEvent → Bool
  | PtyEvent.ended _ => true
  | PtyEvent.output _ _ => false

/-- Rust `str::split(sep)` on a character list: splits at every separator,
keeping empty groups (`"a//" → ["a", "", ""]`, `"" → [""]`). -/
def splitCharList (p : Char → Bool) : List Char → List (List Char)
  | [] => [[]]
  | c :: rest =>
    if p c then [] :: splitCharList p rest
    else
      match splitCharList p rest with
      | [] => [[c]]
      | g :: gs => (c :: g) :: gs

/-- Rust `str::trim`: drop whitespace from both ends. -/
def rustTrim (s : String) : String :=
  String.mk (((s.data.dropWhile Char.isWhitespace).reverse.dropWhile
      Char.isWhitespace).reverse)

/-- `name.split('/').last().unwrap_or(&name)`: the component after the last
path separator (`split` always yields at least one group, so the fallback is
never taken). -/
def stripPath (name : String) : String :=
  (((splitCharList (fun c => c = '/') name.data).map String.mk).getLast?).getD name

/-- `name.strip_prefix('-').unwrap_or(name)`: drop one leading `-`
(login-shell marker). -/
def stripDash (name : String) : String :=
  match name.data with
  | '-' :: rest => String.mk rest
  | _ => name

/-- Rust `str::split_whitespace`: whitespace-separated words, empties
dropped. -/
def splitWs (s : String) : List String :=
  ((splitCharList Char.isWhitespace s.data).filter (fun g => !g.isEmpty)).map String.mk

/-- One `ps` invocation of the foreground resolver, recorded so that theorems
can speak about which OS queries a call performs:
`comm pid` is `ps -o comm= -p pid`, `tty pid` is `ps -o tty= -p pid`,
`listTty t` is `ps -t t -o pid=,stat=,comm=`. -/
inductive PsQuery where
  | comm (pid : Nat)
  | tty (pid : Nat)
  | listTty (tty : String)
deriving DecidableEq, Repr

/-- Oracle for the three `ps` invocations: `none` models a spawn failure or a
non-success exit status, `some` the trimmed-to-be stdout (for `tty_list`, the
stdout line list). -/
structure ResolveEnv where
  comm_query : Option String
  tty_query : Option String
  tty_list : Option (List String)
deriving DecidableEq, Repr

/-- The scan over `ps -t tty -o pid=,stat=,comm=` lines (lib.rs lines 229-245):
the first line with ≥ 3 whitespace-separated fields whose `stat` contains `+`,
whose `pid` field differs from the shell pid, and whose normalized command name
differs from the shell name, yields that name; otherwise the shell name. -/
def scanLines (shell_pid : Nat) (shell_name : String) : List String → String
  | [] => shell_name
  | line :: rest =>
    match splitWs line with
    | pid :: stat :: comm :: _ =>
      if stat.data.contains '+' && pid != toString shell_pid then
        let name := stripDash (stripPath comm)
        if name != shell_name then name
        else scanLines shell_pid shell_name rest
      else scanLines shell_pid shell_name rest
    | _ => scanLines shell_pid shell_name rest

/-- The `spawn_blocking` closure of `get_pty_foreground_process`
(lib.rs lines 189-250), instrumented with the list of `ps` queries it issues:
always query the shell's command name first (placeholder `"shell"` on failure);
if the pid is `0`, return that name; otherwise query the shell's tty, returning
the shell name when it is empty or `"??"`; otherwise scan the processes on that
tty for a foreground process distinct from the shell. -/
def resolveForeground (env : ResolveEnv) (shell_pid : Nat) : String × List PsQuery :=
  let shell_name :=
    match env.comm_query with
    | some out => stripDash (stripPath (rustTrim out))
    | none => "shell"
  if shell_pid = 0 then
    (shell_name, [PsQuery.comm shell_pid])
  else
    let tty :=
      match env.tty_query with
      | some out => rustTrim out
      | none => ""
    if tty = "" ∨ tty = "??" then
      (shell_name, [PsQuery.comm shell_pid, PsQuery.tty shell_pid])
    else
      match env.tty_list with
      | some lines =>
          (scanLines shell_pid shell_name lines,
           [PsQuery.comm shell_pid, PsQuery.tty shell_pid, PsQuery.listTty tty])
      | none =>
          (shell_name,
           [PsQuery.comm shell_pid, PsQuery.tty shell_pid, PsQuery.listTty tty])

/-- `get_pty_foreground_process` (lib.rs lines 176-253): read the session's
recorded pid under the table lock; an unknown id is answered with
`Err("Session not found")`, a known one with the resolver's name (the
`spawn_blocking` join, which fails only on a panic of the closure, is not
modelled). -/
def get_pty_foreground_process (env : ResolveEnv) (st : PtyState) (session_id : Nat) :
    Except String String :=
  match tableLookup session_id st.sessions with
  | none => Except.error "Session not found"
  | some s => Except.ok (resolveForeground env s.child_pid).1

/-- `true` iff the step succeeded. -/
def exceptOk : Except String Unit → Bool
  | Except.ok _ => true
  | Except.error _ => false

/-- `true` iff every OS step of a `create_pty_session` call succeeds, i.e. the
call returns `Ok`. -/
def envOk (env : CreateEnv) : Bool :=
  exceptOk env.openpty && exceptOk env.spawn_command &&
    exceptOk env.take_writer && exceptOk env.clone_reader

/-- A caller-visible action against the session table: a `create_pty_session`
call (with its OS oracle) or a `close_pty_session` call. -/
inductive Cmd where
  | create (env : CreateEnv)
  | close (session_id : Nat)
deriving DecidableEq, Repr

/-- Run one command, returning the id handed back by a successful create. -/
def stepCmd : Cmd → PtyState → Option Nat × PtyState
  | Cmd.create env, st =>
    match create_pty_session env st with
    | (Except.ok session_id, st') => (some session_id, st')
    | (Except.error _, st') => (none, st')
  | Cmd.close session_id, st => (none, (close_pty_session st session_id).2)

/-- The ids returned by the successful creates of a command sequence, in call
order. -/
def createdIds : List Cmd → PtyState → List Nat
  | [], _ => []
  | c :: rest, st =>
    match stepCmd c st with
    | (some session_id, st') => session_id :: createdIds rest st'
    | (none, st') => createdIds rest st'

/-- Number of creates in the sequence whose OS steps all succeed. -/
def successCount : List Cmd → Nat
  | [] => 0
  | Cmd.create env :: rest => (if envOk env then 1 else 0) + successCount rest
  | Cmd.close _ :: rest => successCount rest

/-- A create oracle on which every OS step succeeds. -/
def okEnv : CreateEnv :=
  { openpty := Except.ok (), spawn_command := Except.ok (),
    take_writer := Except.ok (), clone_reader := Except.ok (),
    process_id := some 4242 }

/-- A create oracle whose very first OS step (`openpty`) fails. -/
def failEnv : CreateEnv :=
  { openpty := Except.error "boom", spawn_command := Except.ok (),
    take_writer := Except.ok (), clone_reader := Except.ok (),
    process_id := some 4242 }

/-- A write oracle on which `write_all` and `flush` both succeed. -/
def okWriteEnv : WriteEnv := { write_all := WriteOutcome.success, flush := none }

/-- A write oracle whose `write_all` fails immediately. -/
def failWriteEnv : WriteEnv :=
  { write_all := WriteOutcome.failAfter 0 "broken pipe", flush := none }

/-- A table state holding exactly one session, id `1`, shell pid `4242`. -/
def oneSessionState : PtyState :=
  { sessions := [(1, { child_pid := 4242 })], next_id := 2 }

/-- A resolver oracle on which every `ps` invocation fails. -/
def psFailEnv : ResolveEnv := { comm_query := none, tty_query := none, tty_list := none }

/-- A resolver oracle whose command-name query answers `kernel_task` (what
`ps -o comm= -p 0` reports on macOS). -/
def psKernelEnv : ResolveEnv :=
  { comm_query := some "kernel_task", tty_query := none, tty_list := none }

theorem tableErase_of_lookup_none (k : Nat) (l : List (Nat × PtySession))
    (h : tableLookup k l = none) : tableErase k l = l := by
  induction l with
  | nil => rfl
  | cons p rest ih =>
    obtain ⟨k', s⟩ := p
    by_cases hk : k' = k
    · simp [tableLookup, hk] at h
    · simp only [tableLookup, if_neg hk] at h
      simp [tableErase, hk, ih h]

theorem tableLookup_tableErase_self (k : Nat) (l : List (Nat × PtySession)) :
    tableLookup k (tableErase k l) = none := by
  induction l with
  | nil => rfl
  | cons p rest ih =>
    obtain ⟨k', s⟩ := p
    by_cases hk : k' = k
    · simp [tableErase, hk, ih]
    · simp [tableErase, tableLookup, hk, ih]

theorem tableErase_idem (k : Nat) (l : List (Nat × PtySession)) :
    tableErase k (tableErase k l) = tableErase k l :=
  tableErase_of_lookup_none k _ (tableLookup_tableErase_self k l)

theorem create_error_state (env : CreateEnv) (st : PtyState) (e : String)
    (h : (create_pty_session env st).1 = Except.error e) :
    (create_pty_session env st).2 = st := by
  obtain ⟨o, sp, w, r, pid⟩ := env
  cases o <;> cases sp <;> cases w <;> cases r <;> simp_all [create_pty_session]

theorem write_to_pty_state (env : WriteEnv) (st : PtyState) (session_id : Nat)
    (data : String) : (write_to_pty env st session_id data).2.1 = st := by
  cases h1 : tableLookup session_id st.sessions <;> cases h2 : env.write_all <;>
    cases h3 : env.flush <;> simp [write_to_pty, h1, h2, h3]

theorem resize_pty_state (ro : Option String) (st : PtyState)
    (session_id rows cols : Nat) : (resize_pty ro st session_id rows cols).2 = st := by
  cases h1 : tableLookup session_id st.sessions <;> cases h2 : ro <;>
    simp [resize_pty, h1, h2]

/-- C3: if `create_pty_session` fails at any OS step (opening the pty pair,
spawning the shell, obtaining the writer or the reader), it returns a
descriptive error and the whole state — session table and id counter — is
exactly as before the call: no entry was inserted under any id. -/
theorem create_failure_no_partial_state (env : CreateEnv) (st : PtyState) (e : String)
    (h : (create_pty_session env st).1 = Except.error e) :
    (create_pty_session env st).2 = st :=
  create_error_state env st e h

/-- Witness for C3 at a concrete failing oracle. -/
theorem create_failure_no_partial_state_witness :
    (create_pty_session failEnv initialState).2 = initialState :=
  create_failure_no_partial_state failEnv initialState "Failed to open pty: boom" rfl

/-- C4: `write_to_pty` on an id absent from the session table — never
allocated or already closed — returns the error `"Session not found"`, leaves
the state untouched, and hands no byte to any writer. -/
theorem write_unknown_session (env : WriteEnv) (st : PtyState) (session_id : Nat)
    (data : String) (h : tableLookup session_id st.sessions = none) :
    write_to_pty env st session_id data = (Except.error "Session not found", st, []) := by
  simp [write_to_pty, h]

/-- Witness for C4: id `7` on the empty table. -/
theorem write_unknown_session_witness :
    write_to_pty okWriteEnv initialState 7 "ls"
      = (Except.error "Session not found", initialState, []) :=
  write_unknown_session okWriteEnv initialState 7 "ls" rfl

/-- C5: `close_pty_session` is total and idempotent — it returns `Ok` on every
input, an absent id leaves the state unchanged, and a second close of the same
id again returns `Ok` and changes nothing. -/
theorem close_idempotent (st : PtyState) (session_id : Nat) :
    (close_pty_session st session_id).1 = Except.ok ()
  ∧ (tableLookup session_id st.sessions = none → (close_pty_session st session_id).2 = st)
  ∧ close_pty_session (close_pty_session st session_id).2 session_id
      = (Except.ok (), (close_pty_session st session_id).2) := by
  refine ⟨rfl, fun h => ?_, ?_⟩
  · simp [close_pty_session, tableErase_of_lookup_none _ _ h]
  · simp [close_pty_session, tableErase_idem]

/-- Witness for C5: closing the never-allocated id `3` twice. -/
theorem close_idempotent_witness :
    (close_pty_session initialState 3).1 = Except.ok ()
  ∧ (close_pty_session initialState 3).2 = initialState :=
  ⟨(close_idempotent initialState 3).1, (close_idempotent initialState 3).2.1 rfl⟩

/-- C8: for an id present in the table, a `write_to_pty` or `resize_pty` call
that fails with an I/O or resize error leaves the session's entry unchanged
and still present — in fact the whole state is returned as it was, so later
operations on the id find the same session. -/
theorem failed_write_resize_preserves_entry (wenv : WriteEnv) (ro : Option String)
    (st : PtyState) (session_id rows cols : Nat) (data : String) (s : PtySession)
    (h : tableLookup session_id st.sessions = some s) :
    (∀ e, (write_to_pty wenv st session_id data).1 = Except.error e →
        (write_to_pty wenv st session_id data).2.1 = st
        ∧ tableLookup session_id ((write_to_pty wenv st session_id data).2.1).sessions
            = some s)
  ∧ (∀ e, (resize_pty ro st session_id rows cols).1 = Except.error e →
        (resize_pty ro st session_id rows cols).2 = st
        ∧ tableLookup session_id ((resize_pty ro st session_id rows cols).2).sessions
            = some s) := by
  refine ⟨fun e _ => ?_, fun e _ => ?_⟩
  · rw [write_to_pty_state]; exact ⟨rfl, h⟩
  · rw [resize_pty_state]; exact ⟨rfl, h⟩

/-- Witness for C8: a failing write and a failing resize against the one-session
table keep entry `1` intact. -/
theorem failed_write_resize_preserves_entry_witness :
    ((write_to_pty failWriteEnv oneSessionState 1 "x").2.1 = oneSessionState
      ∧ tableLookup 1 ((write_to_pty failWriteEnv oneSessionState 1 "x").2.1).sessions
          = some { child_pid := 4242 })
  ∧ ((resize_pty (some "ioctl failed") oneSessionState 1 40 120).2 = oneSessionState
      ∧ tableLookup 1 ((resize_pty (some "ioctl failed") oneSessionState 1 40 120).2).sessions
          = some { child_pid := 4242 }) :=
  ⟨(failed_write_resize_preserves_entry failWriteEnv (some "ioctl failed") oneSessionState
      1 40 120 "x" { child_pid := 4242 } rfl).1 "Write error: broken pipe" rfl,
   (failed_write_resize_preserves_entry failWriteEnv (some "ioctl failed") oneSessionState
      1 40 120 "x" { child_pid := 4242 } rfl).2 "Resize error: ioctl failed" rfl⟩

/-- Counterexample to C1 as stated: for a session id absent from the table
(never allocated here — the table is empty), `get_pty_foreground_process` does
return an error to its caller, `Err("Session not found")`, rather than a
string. -/
theorem foreground_unknown_session_errors_cex :
    get_pty_foreground_process psFailEnv initialState 1
      = Except.error "Session not found" := rfl

/-- C1 (amended): for every session id *present in the table*, and for every
outcome of the OS process-listing queries — including all three failing —
`get_pty_foreground_process` returns a string, never an error; query failures
are absorbed into fallback names. -/
theorem foreground_known_session_never_fails (env : ResolveEnv) (st : PtyState)
    (session_id : Nat) (s : PtySession)
    (h : tableLookup session_id st.sessions = some s) :
    ∃ name, get_pty_foreground_process env st session_id = Except.ok name :=
  ⟨(resolveForeground env s.child_pid).1, by simp [get_pty_foreground_process, h]⟩

/-- Witness for C1 (amended): the one-session table with every `ps` query
failing. -/
theorem foreground_known_session_never_fails_witness :
    ∃ name, get_pty_foreground_process psFailEnv oneSessionState 1 = Except.ok name :=
  foreground_known_session_never_fails psFailEnv oneSessionState 1 { child_pid := 4242 } rfl

/-- Counterexample to C7 as stated: for a recorded pid of `0` the resolver does
*not* return a generic placeholder without touching the OS — it first issues the
command-name query `ps -o comm= -p 0` and returns that query's answer (here
`"kernel_task"`), which differs from the placeholder `"shell"`. -/
theorem foreground_pid_zero_cex :
    resolveForeground psKernelEnv 0 = ("kernel_task", [PsQuery.comm 0])
  ∧ "kernel_task" ≠ "shell"
  ∧ [PsQuery.comm 0] ≠ ([] : List PsQuery) :=
  ⟨by decide, by decide, by decide⟩

theorem stepCmd_create_ok (env : CreateEnv) (st : PtyState) (h : envOk env = true) :
    stepCmd (Cmd.create env) st
      = (some st.next_id,
         { sessions := tableInsert st.next_id { child_pid := env.process_id.getD 0 }
             st.sessions,
           next_id := (st.next_id + 1) % u32Mod }) := by
  obtain ⟨o, sp, w, r, pid⟩ := env
  cases o <;> cases sp <;> cases w <;> cases r <;>
    simp_all [envOk, exceptOk, stepCmd, create_pty_session]

theorem stepCmd_create_err (env : CreateEnv) (st : PtyState) (h : envOk env = false) :
    stepCmd (Cmd.create env) st = (none, st) := by
  obtain ⟨o, sp, w, r, pid⟩ := env
  cases o <;> cases sp <;> cases w <;> cases r <;>
    simp_all [envOk, exceptOk, stepCmd, create_pty_session]

theorem stepCmd_close (session_id : Nat) (st : PtyState) :
    stepCmd (Cmd.close session_id) st
      = (none, { st with sessions := tableErase session_id st.sessions }) := rfl

theorem createdIds_range (cmds : List Cmd) : ∀ st : PtyState,
    st.next_id + successCount cmds ≤ u32Mod →
    createdIds cmds st = List.range' st.next_id (successCount cmds) := by
  induction cmds with
  | nil => intro st _; rfl
  | cons c rest ih =>
    intro st h
    cases c with
    | close sid =>
      simp only [createdIds, stepCmd_close]
      simp only [successCount] at h ⊢
      exact ih _ h
    | create env =>
      cases he : envOk env with
      | false =>
        simp only [createdIds, stepCmd_create_err env st he]
        simp only [successCount, he, if_neg Bool.false_ne_true, Nat.zero_add] at h ⊢
        exact ih st h
      | true =>
        simp only [createdIds, stepCmd_create_ok env st he]
        have hsc : successCount (Cmd.create env :: rest) = successCount rest + 1 := by
          simp [successCount, he, Nat.add_comm]
        rw [hsc, List.range'_succ]
        congr 1
        rcases Nat.eq_zero_or_pos (successCount rest) with h0 | hpos
        · have hle : ((st.next_id + 1) % u32Mod) + successCount rest ≤ u32Mod := by
            have hmlt : (st.next_id + 1) % u32Mod < u32Mod :=
              Nat.mod_lt _ (by simp [u32Mod])
            omega
          rw [ih _ hle, h0]
          simp [List.range']
        · have hlt : st.next_id + 1 < u32Mod := by
            rw [hsc] at h; omega
          have hle : ((st.next_id + 1) % u32Mod) + successCount rest ≤ u32Mod := by
            rw [Nat.mod_eq_of_lt hlt]; rw [hsc] at h; omega
          rw [ih _ hle]
          simp [Nat.mod_eq_of_lt hlt]

/-- C2 (amended): along any sequence of create and close calls from the initial
state, the ids handed back by successful creates are strictly increasing in
call order and never repeat — provided the sequence performs fewer than
`2 ^ 32` successful creates, the point at which the `u32` counter wraps. -/
theorem created_ids_strictly_increasing (cmds : List Cmd)
    (h : successCount cmds < u32Mod) :
    List.Pairwise (· < ·) (createdIds cmds initialState)
  ∧ (createdIds cmds initialState).Nodup := by
  have h1 : initialState.next_id + successCount cmds ≤ u32Mod := by
    show 1 + successCount cmds ≤ u32Mod
    omega
  rw [createdIds_range cmds initialState h1]
  exact ⟨List.pairwise_lt_range' _ _,
    (List.pairwise_lt_range' _ _).imp fun hab => Nat.ne_of_lt hab⟩

/-- Witness for C2 (amended): create, close the session, create again — the
returned ids `[1, 2]` are strictly increasing and distinct. -/
theorem created_ids_strictly_increasing_witness :
    List.Pairwise (· < ·)
        (createdIds [Cmd.create okEnv, Cmd.close 1, Cmd.create okEnv] initialState)
  ∧ (createdIds [Cmd.create okEnv, Cmd.close 1, Cmd.create okEnv] initialState).Nodup :=
  created_ids_strictly_increasing [Cmd.create okEnv, Cmd.close 1, Cmd.create okEnv]
    (by decide)

theorem createdIds_replicate (n : Nat) : ∀ st : PtyState, st.next_id < u32Mod →
    createdIds (List.replicate n (Cmd.create okEnv)) st
      = (List.range n).map (fun k => (st.next_id + k) % u32Mod) := by
  induction n with
  | zero => intro st _; rfl
  | succ m ih =>
    intro st hst
    rw [List.replicate_succ]
    simp only [createdIds, stepCmd_create_ok okEnv st (by decide)]
    rw [List.range_succ_eq_map, List.map_cons, List.map_map]
    congr 1
    · rw [Nat.add_zero, Nat.mod_eq_of_lt hst]
    · rw [ih _ (Nat.mod_lt _ (by simp [u32Mod]))]
      congr 1
      funext k
      simp only [Function.comp, u32Mod]
      omega

/-- Counterexample to C2 as stated: over the sequence of `2 ^ 32` successful
creates, the `u32` counter wraps — the last call returns id `0`, smaller than
the id `1` of the first call — so the returned ids are not strictly
increasing. -/
theorem created_ids_wrap_cex :
    ¬ List.Pairwise (· < ·)
        (createdIds (List.replicate u32Mod (Cmd.create okEnv)) initialState) := by
  intro hp
  rw [createdIds_replicate u32Mod initialState (by decide)] at hp
  have hr : List.range u32Mod = List.range 4294967295 ++ [4294967295] := by
    rw [show u32Mod = 4294967295 + 1 from by decide, List.range_succ]
  rw [hr, List.map_append, List.pairwise_append] at hp
  have h1 : (1 : Nat) ∈ (List.range 4294967295).map
      (fun k => (initialState.next_id + k) % u32Mod) := by
    refine List.mem_map.mpr ⟨0, List.mem_range.mpr (by norm_num), ?_⟩
    decide
  have h2 := hp.2.2 1 h1 ((initialState.next_id + 4294967295) % u32Mod) (by simp)
  rw [show (initialState.next_id + 4294967295) % u32Mod = 0 from by decide] at h2
  exact absurd h2 (by decide)

theorem utf8Lossy_ascii (b : Nat) (rest : List Nat) (h : b < 128) :
    utf8Lossy (b :: rest) = Char.ofNat b :: utf8Lossy rest := by
  rcases rest with _ | ⟨x, _ | ⟨y, _ | ⟨z, zs⟩⟩⟩
  · rw [utf8Lossy.eq_2, if_pos h]; rfl
  · rw [utf8Lossy.eq_3, if_pos h]
  · rw [utf8Lossy.eq_4, if_pos h]
  · rw [utf8Lossy.eq_5, if_pos h]

theorem utf8Lossy_twoByte (b c1 : Nat) (rest : List Nat) (hb : 194 ≤ b ∧ b ≤ 223)
    (hc : 128 ≤ c1 ∧ c1 ≤ 191) :
    utf8Lossy (b :: c1 :: rest)
      = Char.ofNat ((b - 192) * 64 + (c1 - 128)) :: utf8Lossy rest := by
  have h1 : ¬ (b < 128) := by omega
  rcases rest with _ | ⟨x, _ | ⟨y, ys⟩⟩
  · rw [utf8Lossy.eq_3, if_neg h1, if_pos hb, if_pos hc]
  · rw [utf8Lossy.eq_4, if_neg h1, if_pos hb, if_pos hc]
  · rw [utf8Lossy.eq_5, if_neg h1, if_pos hb, if_pos hc]

theorem utf8Lossy_threeByte (b c1 c2 : Nat) (rest : List Nat) (hb : 224 ≤ b ∧ b ≤ 239)
    (hc1 : cont1lo b ≤ c1 ∧ c1 ≤ cont1hi b) (hc2 : 128 ≤ c2 ∧ c2 ≤ 191) :
    utf8Lossy (b :: c1 :: c2 :: rest)
      = Char.ofNat ((b - 224) * 4096 + (c1 - 128) * 64 + (c2 - 128)) :: utf8Lossy rest := by
  have h1 : ¬ (b < 128) := by omega
  have h2 : ¬ (194 ≤ b ∧ b ≤ 223) := by omega
  rcases rest with _ | ⟨x, xs⟩
  · rw [utf8Lossy.eq_4, if_neg h1, if_neg h2, if_pos hb, if_pos hc1, if_pos hc2]
  · rw [utf8Lossy.eq_5, if_neg h1, if_neg h2, if_pos hb, if_pos hc1, if_pos hc2]

theorem utf8Lossy_fourByte (b c1 c2 c3 : Nat) (rest : List Nat) (hb : 240 ≤ b ∧ b ≤ 244)
    (hc1 : cont1lo b ≤ c1 ∧ c1 ≤ cont1hi b) (hc2 : 128 ≤ c2 ∧ c2 ≤ 191)
    (hc3 : 128 ≤ c3 ∧ c3 ≤ 191) :
    utf8Lossy (b :: c1 :: c2 :: c3 :: rest)
      = Char.ofNat ((b - 240) * 262144 + (c1 - 128) * 4096 + (c2 - 128) * 64 + (c3 - 128))
          :: utf8Lossy rest := by
  have h1 : ¬ (b < 128) := by omega
  have h2 : ¬ (194 ≤ b ∧ b ≤ 223) := by omega
  have h3 : ¬ (224 ≤ b ∧ b ≤ 239) := by omega
  rw [utf8Lossy.eq_5, if_neg h1, if_neg h2, if_neg h3, if_pos hb, if_pos hc1,
    if_pos hc2, if_pos hc3]

theorem utf8Lossy_encodeChar (c : Char) (rest : List Nat) :
    utf8Lossy (utf8EncodeChar c ++ rest) = c :: utf8Lossy rest := by
  have hv : c.toNat < 55296 ∨ (57343 < c.toNat ∧ c.toNat < 1114112) := c.valid
  by_cases h1 : c.toNat < 128
  · have he : utf8EncodeChar c = [c.toNat] := by
      simp only [utf8EncodeChar]; rw [if_pos h1]
    rw [he, List.cons_append, List.nil_append, utf8Lossy_ascii _ _ h1, Char.ofNat_toNat]
  · by_cases h2 : c.toNat < 2048
    · have he : utf8EncodeChar c = [192 + c.toNat / 64, 128 + c.toNat % 64] := by
        simp only [utf8EncodeChar]; rw [if_neg h1, if_pos h2]
      rw [he]
      simp only [List.cons_append, List.nil_append]
      rw [utf8Lossy_twoByte _ _ _ (by omega) (by omega),
        show (192 + c.toNat / 64 - 192) * 64 + (128 + c.toNat % 64 - 128) = c.toNat
          from by omega,
        Char.ofNat_toNat]
    · by_cases h3 : c.toNat < 65536
      · have he : utf8EncodeChar c
            = [224 + c.toNat / 4096, 128 + c.toNat / 64 % 64, 128 + c.toNat % 64] := by
          simp only [utf8EncodeChar]; rw [if_neg h1, if_neg h2, if_pos h3]
        rw [he]
        simp only [List.cons_append, List.nil_append]
        have hc1 : cont1lo (224 + c.toNat / 4096) ≤ 128 + c.toNat / 64 % 64
            ∧ 128 + c.toNat / 64 % 64 ≤ cont1hi (224 + c.toNat / 4096) := by
          unfold cont1lo cont1hi
          constructor <;> split_ifs <;> omega
        rw [utf8Lossy_threeByte _ _ _ _ (by omega) hc1 (by omega),
          show (224 + c.toNat / 4096 - 224) * 4096 + (128 + c.toNat / 64 % 64 - 128) * 64
              + (128 + c.toNat % 64 - 128) = c.toNat from by omega,
          Char.ofNat_toNat]
      · have he : utf8EncodeChar c
            = [240 + c.toNat / 262144, 128 + c.toNat / 4096 % 64,
               128 + c.toNat / 64 % 64, 128 + c.toNat % 64] := by
          simp only [utf8EncodeChar]; rw [if_neg h1, if_neg h2, if_neg h3]
        rw [he]
        simp only [List.cons_append, List.nil_append]
        have hub : c.toNat < 1114112 := by omega
        have hc1 : cont1lo (240 + c.toNat / 262144) ≤ 128 + c.toNat / 4096 % 64
            ∧ 128 + c.toNat / 4096 % 64 ≤ cont1hi (240 + c.toNat / 262144) := by
          unfold cont1lo cont1hi
          constructor <;> split_ifs <;> omega
        rw [utf8Lossy_fourByte _ _ _ _ _ (by omega) hc1 (by omega) (by omega),
          show (240 + c.toNat / 262144 - 240) * 262144 + (128 + c.toNat / 4096 % 64 - 128) * 4096
              + (128 + c.toNat / 64 % 64 - 128) * 64 + (128 + c.toNat % 64 - 128) = c.toNat
            from by omega,
          Char.ofNat_toNat]

theorem utf8Lossy_flatten_encode (cs : List Char) :
    utf8Lossy ((cs.map utf8EncodeChar).flatten) = cs := by
  induction cs with
  | nil => rfl
  | cons c rest ih =>
    simp only [List.map_cons, List.flatten_cons]
    rw [utf8Lossy_encodeChar, ih]

/-- C6: each reader-loop iteration behaves as specified — a zero-byte read
emits the session-ended event and terminates; a read of `n > 0` bytes emits an
output event carrying those bytes decoded permissively (valid UTF-8 round-trips
exactly; an isolated continuation byte, invalid on its own, becomes the
replacement character) and continues with the rest of the trace; a read error
emits the session-ended event and terminates. -/
theorem reader_loop_iteration (session_id : Nat) (rest : List ReadResult) :
    readerLoop session_id (ReadResult.ok [] :: rest) = [PtyEvent.ended session_id]
  ∧ (∀ bs : List Nat, bs ≠ [] →
      readerLoop session_id (ReadResult.ok bs :: rest)
        = PtyEvent.output session_id (String.mk (utf8Lossy bs))
            :: readerLoop session_id rest)
  ∧ readerLoop session_id (ReadResult.err :: rest) = [PtyEvent.ended session_id]
  ∧ (∀ s : String, utf8Lossy (utf8Encode s) = s.data)
  ∧ (∀ b : Nat, 128 ≤ b → b ≤ 191 → utf8Lossy [b] = [replChar]) := by
  refine ⟨rfl, fun bs hbs => ?_, rfl, fun s => utf8Lossy_flatten_encode s.data,
    fun b hb1 hb2 => ?_⟩
  · cases bs with
    | nil => exact absurd rfl hbs
    | cons x xs => rfl
  · rw [utf8Lossy.eq_2, if_neg (by omega)]

/-- Witness for C6: a valid chunk, an invalid lone continuation byte, then a
read error. -/
theorem reader_loop_iteration_witness :
    readerLoop 1 [ReadResult.ok [104, 195, 169], ReadResult.ok [128], ReadResult.err]
      = [PtyEvent.output 1 "hé", PtyEvent.output 1 (String.mk [replChar]),
         PtyEvent.ended 1] := by
  have h1 := reader_loop_iteration 1 [ReadResult.ok [128], ReadResult.err]
  have h2 := reader_loop_iteration 1 [ReadResult.err]
  rw [h1.2.1 [104, 195, 169] (by decide), h2.2.1 [128] (by decide),
    h2.2.2.2.2 128 (by decide) (by decide)]
  decide

/-- C9: over any trace of read outcomes, the reader loop emits at most one
session-ended event, and when an ended event occurs nothing follows it — it is
the final event of the session's stream. -/
theorem reader_loop_end_event_final (session_id : Nat) (trace : List ReadResult) :
    (readerLoop session_id trace).countP isEnded ≤ 1
  ∧ ∀ pre post,
      readerLoop session_id trace = pre ++ PtyEvent.ended session_id :: post →
      post = [] := by
  induction trace with
  | nil =>
    refine ⟨by simp [readerLoop], fun pre post h => ?_⟩
    have hl := congrArg List.length h
    simp [readerLoop, List.length_append] at hl
    omega
  | cons r rest ih =>
    cases r with
    | err =>
      refine ⟨by simp [readerLoop, List.countP_cons, List.countP_nil, isEnded],
        fun pre post h => ?_⟩
      have hl := congrArg List.length h
      simp [readerLoop, List.length_append] at hl
      have hp : post.length = 0 := by omega
      exact List.length_eq_zero.mp hp
    | ok bs =>
      cases bs with
      | nil =>
        refine ⟨by simp [readerLoop, List.countP_cons, List.countP_nil, isEnded],
          fun pre post h => ?_⟩
        have hl := congrArg List.length h
        simp [readerLoop, List.length_append] at hl
        have hp : post.length = 0 := by omega
        exact List.length_eq_zero.mp hp
      | cons x xs =>
        have hc : readerLoop session_id (ReadResult.ok (x :: xs) :: rest)
            = PtyEvent.output session_id (String.mk (utf8Lossy (x :: xs)))
                :: readerLoop session_id rest := rfl
        refine ⟨?_, fun pre post h => ?_⟩
        · rw [hc, List.countP_cons]
          simp only [isEnded]
          simpa using ih.1
        · rw [hc] at h
          cases pre with
          | nil => simp at h
          | cons y ys =>
            rw [List.cons_append] at h
            have h2 := (List.cons.injEq _ _ _ _).mp h
            exact ih.2 ys post h2.2

/-- Witness for C9: an output followed by an end-of-stream read. -/
theorem reader_loop_end_event_final_witness :
    (readerLoop 1 [ReadResult.ok [104], ReadResult.err]).countP isEnded ≤ 1
  ∧ ([] : List PtyEvent) = [] :=
  ⟨(reader_loop_end_event_final 1 [ReadResult.ok [104], ReadResult.err]).1,
   (reader_loop_end_event_final 1 [ReadResult.ok [104], ReadResult.err]).2
      [PtyEvent.output 1 "h"] [] (by decide)⟩

/-- C10: `write_to_pty` takes a `String` — by construction a valid UTF-8
payload, not an arbitrary byte sequence — and on success the bytes handed to
the session's writer before the flush are exactly the UTF-8 encoding of that
string (in particular they decode back to it without any replacement
character). -/
theorem write_success_exact_utf8 (env : WriteEnv) (st : PtyState) (session_id : Nat)
    (data : String) (h : (write_to_pty env st session_id data).1 = Except.ok ()) :
    (write_to_pty env st session_id data).2.2 = utf8Encode data
  ∧ utf8Lossy (utf8Encode data) = data.data := by
  refine ⟨?_, utf8Lossy_flatten_encode data.data⟩
  cases h1 : tableLookup session_id st.sessions <;> cases h2 : env.write_all <;>
    cases h3 : env.flush <;> simp_all [write_to_pty]

/-- Witness for C10: a successful write of a two-byte-encoded character. -/
theorem write_success_exact_utf8_witness :
    (write_to_pty okWriteEnv oneSessionState 1 "hé").2.2 = utf8Encode "hé"
  ∧ utf8Lossy (utf8Encode "hé") = "hé".data :=
  write_success_exact_utf8 okWriteEnv oneSessionState 1 "hé" rfl

/-- C7 (amended): for a recorded pid of `0` the resolver issues exactly one OS
query — the command-name query for pid `0` — and returns its canonicalized
answer, falling back to the generic placeholder `"shell"` when that query
fails; the terminal-device query and the foreground scan are skipped, so the
result is independent of their outcomes. -/
theorem foreground_pid_zero_behavior (env env' : ResolveEnv)
    (h : env.comm_query = env'.comm_query) :
    resolveForeground env 0 = resolveForeground env' 0
  ∧ (resolveForeground env 0).2 = [PsQuery.comm 0]
  ∧ (env.comm_query = none → (resolveForeground env 0).1 = "shell") := by
  refine ⟨?_, rfl, fun hc => ?_⟩
  · simp [resolveForeground, h]
  · simp [resolveForeground, hc]

/-- Witness for C7 (amended): two oracles agreeing on the command-name query
but disagreeing elsewhere resolve pid `0` identically. -/
theorem foreground_pid_zero_behavior_witness :
    resolveForeground psFailEnv 0
        = resolveForeground { psFailEnv with tty_query := some "ttys000" } 0
  ∧ (resolveForeground psFailEnv 0).2 = [PsQuery.comm 0]
  ∧ (resolveForeground psFailEnv 0).1 = "shell" := by
  have h := foreground_pid_zero_behavior psFailEnv
    { psFailEnv with tty_query := some "ttys000" } rfl
  exact ⟨h.1, h.2.1, h.2.2 rfl⟩


